import Mathlib

/-
  Verification development for the um2nc fieldsfile-to-netCDF converter.
  The Python sources (umami/um2nc.py, amami/helpers.py, amami/parsers/um2nc_parser.py)
  are embedded shallowly: numeric arrays become lists of rationals, in-place
  mutation becomes explicit state passing, and fallible code returns Except.
-/

set_option maxHeartbeats 1000000

namespace Um2nc

/-! ## Decimal representation of naturals
    Models Python decimal formatting of a nonnegative integer, as used by
    the percent-formatting in process and the f-string in create_unexistent_file.
    Structural fuel recursion: fuel n + 1 always suffices since the digit count
    of n is at most n + 1. -/

def digChar (d : Nat) : Char := Char.ofNat (48 + d)

def decDigitsGo : Nat → Nat → List Char
  | 0, _ => []
  | fuel + 1, n =>
    if n < 10 then [digChar n] else decDigitsGo fuel (n / 10) ++ [digChar (n % 10)]

def decRepr (n : Nat) : String := String.mk (decDigitsGo (n + 1) n)

/-- Value of a digit string, used only to prove decRepr injective. -/
def decVal (cs : List Char) : Nat := cs.foldl (fun a c => 10 * a + (c.toNat - 48)) 0

/-- Zero padding to a minimum width, modelling the percent-2.2d and
    percent-3.3d conversions in process. -/
def zeroPad (w : Nat) (s : String) : String :=
  String.mk (List.replicate (w - s.length) '0') ++ s

/-! ## Cell methods (um2nc.py, fix_cell_methods, lines 190-201) -/

structure CellMethod where
  method : String
  coord_names : List String
  intervals : List String
  comments : List String
deriving DecidableEq

def cmDefault : CellMethod := ⟨"", [], [], []⟩

/-- Prefix test on character lists. -/
def isPre : List Char → List Char → Bool
  | [], _ => true
  | _ :: _, [] => false
  | a :: as, b :: bs => a == b && isPre as bs

/-- Substring occurrence test on character lists. -/
def hasSubList (pat : List Char) : List Char → Bool
  | [] => pat.isEmpty
  | c :: cs => isPre pat (c :: cs) || hasSubList pat cs

/-- True when the Python expression i.find(quote hour quote) is not -1,
    i.e. the interval descriptor contains the hour substring. -/
def hasHour (s : String) : Bool := hasSubList "hour".data s.data

/-- Embeds fix_cell_methods: rebuild each cell method, keeping only the
    interval descriptors that do not mention hours, in order. -/
def fix_cell_methods (mtuple : List CellMethod) : List CellMethod :=
  mtuple.map (fun m =>
    { m with intervals := m.intervals.filter (fun i => !(hasHour i)) })

/-! ## Variable naming (um2nc.py, process, lines 307-317) -/

structure UmVar where
  uniquename : Option String
  standard_name : Option String
  long_name : Option String
  units : String

/-- Python truthiness of an optional string attribute: None and the empty
    string are falsy. -/
def strTruthy : Option String → Bool
  | none => false
  | some s => !(s == "")

/-- The simple-mode template fld_s..i... with the section zero padded to two
    digits and the item to three. -/
def fld_template (sec item : Nat) : String :=
  "fld_s" ++ zeroPad 2 (decRepr sec) ++ "i" ++ zeroPad 3 (decRepr item)

/-- The two independent suffix checks at lines 313-317: append _max when any
    cell method is a maximum, then _min when any is a minimum. -/
def addMaxMinSuffix (name : String) (methods : List CellMethod) : String :=
  let n1 := if methods.any (fun m => m.method == "maximum") then name ++ "_max" else name
  if methods.any (fun m => m.method == "minimum") then n1 ++ "_min" else n1

/-- Embeds the naming logic of process lines 307-317. prior is the var_name
    the cube carries before this step; it is kept when simple mode is off and
    the resolver has no truthy uniquename. The suffix step runs only when the
    resulting name is truthy. -/
def processVarName (simple : Bool) (sec item : Nat) (uniquename : Option String)
    (prior : Option String) (methods : List CellMethod) : Option String :=
  let base : Option String :=
    if simple then some (fld_template sec item)
    else if strTruthy uniquename then uniquename
    else prior
  if strTruthy base then base.map (fun n => addMaxMinSuffix n methods) else base

/-! ## Pressure-level masking (um2nc.py, apply_mask, lines 203-226)
    A cube is modelled by its pressure points (one per leading row), its data
    rows, a mask of missing flags, and a dtype tag. -/

structure PCube where
  pressure : List ℚ
  data : List (List ℚ)
  mask : List (List Bool)
  dtype : String
deriving DecidableEq

inductive QError
  | QValueError (msg : String)
deriving DecidableEq

/-- The array shape of the cube data: the length of each row, which also
    determines the number of rows. -/
def cshape (c : PCube) : List Nat := c.data.map List.length

/-- Elementwise division of data rows. Division by zero yields the junk value
    zero in the rational model; numpy produces inf or nan there, silenced by
    np.errstate, and masking hides those positions. -/
def maskDivide (cdata hdata : List (List ℚ)) : List (List ℚ) :=
  List.zipWith (fun cr hr => List.zipWith (fun x y => x / y) cr hr) cdata hdata

/-- The mask of the masked array: true exactly where the heaviside value is
    at most the critical threshold. -/
def maskFlags (hdata : List (List ℚ)) (hcrit : ℚ) : List (List Bool) :=
  hdata.map (fun r => r.map (fun y => decide (y ≤ hcrit)))

/-- Embeds heaviside.extract(iris.Constraint(pressure=c_p.points)): keep the
    rows of the heaviside cube whose pressure point occurs among pts,
    preserving order. -/
def extractPressure (h : PCube) (pts : List ℚ) : PCube :=
  let pairs := (h.pressure.zip h.data).filter (fun q => decide (q.1 ∈ pts))
  { h with pressure := pairs.map Prod.fst, data := pairs.map Prod.snd }

/-- Embeds apply_mask. Identical shapes take the simple branch; otherwise the
    heaviside cube is restricted to the pressure points of c, with the double
    check on the extracted pressure coordinate, and set-subset failure raises
    the level-mismatch QValueError. -/
def apply_mask (c heaviside : PCube) (hcrit : ℚ) : Except QError PCube :=
  if cshape c = cshape heaviside then
    .ok { c with data := maskDivide c.data heaviside.data,
                 mask := maskFlags heaviside.data hcrit,
                 dtype := "float32" }
  else
    if c.pressure.all (fun p => decide (p ∈ heaviside.pressure)) then
      let h_tmp := extractPressure heaviside c.pressure
      if c.pressure = h_tmp.pressure then
        .ok { c with data := maskDivide c.data h_tmp.data,
                     mask := maskFlags h_tmp.data hcrit,
                     dtype := "float32" }
      else
        .error (.QValueError "Unexpected mismatch in levels of extracted heaviside function")
    else
      .error (.QValueError "Unable to match levels of heaviside function to variable")

/-- The successful result of apply_mask: data replaced by the elementwise
    quotient, mask set from the threshold test, dtype narrowed to float32. -/
def maskedResult (c hv : PCube) (hcrit : ℚ) : PCube :=
  { c with data := maskDivide c.data hv.data,
           mask := maskFlags hv.data hcrit,
           dtype := "float32" }

/-- Entry of a data matrix with defaults, for elementwise statements. -/
def entry (d : List (List ℚ)) (i j : Nat) : ℚ := (d.getD i []).getD j 0

/-- Entry of a mask matrix with defaults. -/
def mentry (m : List (List Bool)) (i j : Nat) : Bool := (m.getD i []).getD j true

/-! ## Latitude and longitude repair (um2nc.py, fix_latlon_coord, lines 48-68)
    Only the dtype forcing and bound assignment of lines 48-68 are modelled;
    the var_name disambiguation of lines 70-86 is outside the claims. -/

structure Coord where
  name : String
  points : List ℚ
  dtype : String
  bounds : Option (List (ℚ × ℚ))
deriving DecidableEq

/-- Embeds iris guess_bounds with bound position one half: each bound pair is
    the point minus half the preceding spacing and plus half the following
    spacing, end spacings extrapolated. Only called with at least two points. -/
def guessBounds (pts : List ℚ) : List (ℚ × ℚ) :=
  let diffs := List.zipWith (fun a b => b - a) pts pts.tail
  let ext := diffs.headD 0 :: (diffs ++ [diffs.getLastD 0])
  (List.range pts.length).map (fun i =>
    (pts.getD i 0 - ext.getD i 0 / 2, pts.getD i 0 + ext.getD (i + 1) 0 / 2))

/-- Embeds the inner helper of fix_latlon_coord: more than one point gets
    guessed bounds when bounds are absent; otherwise the single global pair
    is assigned by coordinate name. -/
def add_coord_bounds (coord : Coord) : Coord :=
  if coord.points.length > 1 then
    if coord.bounds = none then { coord with bounds := some (guessBounds coord.points) }
    else coord
  else
    if coord.name = "latitude" then
      if coord.bounds = none then { coord with bounds := some [(-90, 90)] } else coord
    else if coord.name = "longitude" then
      if coord.bounds = none then { coord with bounds := some [(0, 360)] } else coord
    else coord

structure LatLonCube where
  lat : Coord
  lon : Coord
deriving DecidableEq

/-- Embeds fix_latlon_coord lines 62-68: force both coordinates to double
    precision, then run the bound helper on each. -/
def fix_latlon_coord (cube : LatLonCube) : LatLonCube :=
  { lat := add_coord_bounds { cube.lat with dtype := "float64" },
    lon := add_coord_bounds { cube.lon with dtype := "float64" } }

/-! ## Pressure coordinate fixes in cubewrite (um2nc.py, lines 110-121) -/

structure PressureCoord where
  points : List ℚ
  units : String
  positive : Option String
deriving DecidableEq

structure PLCube where
  pressure : Option PressureCoord
  data : List (List ℚ)
deriving DecidableEq

/-- Conversion factor to pascals for the unit names occurring in UM pressure
    coordinates; convert_units is an external udunits call, modelled on the
    units that arise (hPa and mbar are hectopascals, Pa is the identity). -/
def toPaFactor (u : String) : ℚ :=
  if u = "Pa" then 1 else if u = "hPa" then 100 else if u = "mbar" then 100 else 1

/-- Rounding to five decimal places, modelling np.round(x, 5). Exact ties are
    idealized as rounding up; numpy rounds ties to even, and no claim depends
    on tie behavior. -/
def round5 (x : ℚ) : ℚ := ((Int.floor (x * 100000 + 1 / 2) : ℤ) : ℚ) / 100000

/-- Embeds cubewrite lines 110-121: when a pressure coordinate is present,
    set its positive attribute to down, convert to Pa, round points, and
    reverse the cube along pressure when the first point is below the last.
    Without a pressure coordinate the cube passes through unchanged. -/
def fix_pressure_coord (c : PLCube) : PLCube :=
  match c.pressure with
  | none => c
  | some pl =>
    let newPts := pl.points.map (fun x => round5 (toPaFactor pl.units * x))
    let pl2 : PressureCoord := { points := newPts, units := "Pa", positive := some "down" }
    if newPts.headD 0 < newPts.getLastD 0 then
      { pressure := some { pl2 with points := newPts.reverse }, data := c.data.reverse }
    else
      { pressure := some pl2, data := c.data }

/-! ## Calendar conversion (um2nc.py, convert_proleptic lines 24-46 and
    cubewrite lines 138-160). Proleptic Gregorian civil-date arithmetic
    follows the standard era decomposition used by cftime. -/

/-- Days from 1970-01-01 of a proleptic Gregorian civil date. -/
def daysFromCivil (y m d : ℤ) : ℤ :=
  let yy := if m ≤ 2 then y - 1 else y
  let era := yy.fdiv 400
  let yoe := yy - era * 400
  let mp := (m + 9) % 12
  let doy := (153 * mp + 2).fdiv 5 + d - 1
  let doe := yoe * 365 + yoe.fdiv 4 - yoe.fdiv 100 + doy
  era * 146097 + doe - 719468

/-- Civil date (year, month, day) of a day count from 1970-01-01 in the
    proleptic Gregorian calendar. -/
def civilFromDays (z0 : ℤ) : ℤ × ℤ × ℤ :=
  let z := z0 + 719468
  let era := z.fdiv 146097
  let doe := z - era * 146097
  let yoe := (doe - doe.fdiv 1460 + doe.fdiv 36524 - doe.fdiv 146096).fdiv 365
  let y := yoe + era * 400
  let doy := doe - (365 * yoe + yoe.fdiv 4 - yoe.fdiv 100)
  let mp := (5 * doy + 2).fdiv 153
  let d := doy - (153 * mp + 2).fdiv 5 + 1
  let m := mp + (if mp < 10 then 3 else -9)
  (if m ≤ 2 then y + 1 else y, m, d)

structure DateTime6 where
  year : ℤ
  month : ℤ
  day : ℤ
  hour : ℤ
  minute : ℤ
  second : ℤ
deriving DecidableEq

/-- Decode an hours-since-1970 value under the proleptic Gregorian calendar
    to a civil date and time, truncated to whole seconds as the
    DatetimeProlepticGregorian constructor call in convert_proleptic does. -/
def num2dateH1970 (t : ℚ) : DateTime6 :=
  let totalSec : ℤ := Int.floor (t * 3600)
  let days := totalSec.fdiv 86400
  let sod := totalSec.emod 86400
  let c := civilFromDays days
  ⟨c.1, c.2.1, c.2.2, sod.fdiv 3600, (sod.emod 3600).fdiv 60, sod.emod 60⟩

/-- Encode a civil date and time as fractional days since 0001-01-01 under
    the proleptic Gregorian calendar, as newunits.date2num does. -/
def date2numDays0001 (dt : DateTime6) : ℚ :=
  ((daysFromCivil dt.year dt.month dt.day - daysFromCivil 1 1 1 : ℤ) : ℚ)
    + ((3600 * dt.hour + 60 * dt.minute + dt.second : ℤ) : ℚ) / 86400

/-- The per-value round trip inside the loop of convert_proleptic. -/
def reencode0001 (x : ℚ) : ℚ := date2numDays0001 (num2dateH1970 x)

structure TimeUnit where
  origin : String
  calendar : String
deriving DecidableEq

structure TimeCoord where
  units : TimeUnit
  points : List ℚ
  bounds : Option (List (ℚ × ℚ))
deriving DecidableEq

/-- Embeds convert_proleptic: every point and, when bounds exist, every bound
    is decoded from hours since 1970 and re-encoded as days since 0001, and
    the unit becomes days since 0001 with the proleptic Gregorian calendar. -/
def convert_proleptic (time : TimeCoord) : TimeCoord :=
  { units := ⟨"days since 0001-01-01 00:00", "proleptic_gregorian"⟩,
    points := time.points.map reencode0001,
    bounds := time.bounds.map (fun bs => bs.map (fun b => (reencode0001 b.1, reencode0001 b.2))) }

/-- Embeds cubewrite lines 144-155, the time unit rewrite, with refYear the
    year of the decoded forecast reference date. -/
def fix_time_units (refYear : ℤ) (time : TimeCoord) : TimeCoord :=
  if time.units.calendar = "proleptic_gregorian" ∧ refYear < 1600 then
    convert_proleptic time
  else
    let newCal := if time.units.calendar = "gregorian" then "proleptic_gregorian"
                  else time.units.calendar
    { units := ⟨"days since 1970-01-01 00:00", newCal⟩,
      points := time.points.map (fun x => x / 24),
      bounds := time.bounds.map (fun bs => bs.map (fun b => (b.1 / 24, b.2 / 24))) }

/-! ## Dimension reordering (um2nc.py, cubewrite lines 169-188) -/

structure Dim where
  name : String
  size : Nat
deriving DecidableEq

structure DimCube where
  dims : List Dim
  scalar_time : Bool
deriving DecidableEq

def dimDefault : Dim := ⟨"", 0⟩

/-- Embeds list(range(ndim)) followed by remove(tdim) and insert(0, tdim). -/
def neworder (n t : Nat) : List Nat := t :: (List.range n).erase t

/-- Embeds cube.transpose(ord): dimension i of the result is dimension
    ord i of the input. -/
def transposeDims (ds : List Dim) (ord : List Nat) : List Dim :=
  ord.map (fun i => ds.getD i dimDefault)

/-- Embeds cubewrite lines 169-188 at the level of the dimension list: a time
    dimension not in front is transposed to position zero; a cube whose time
    coordinate is only scalar gains a new leading length-one dimension; a cube
    with no time coordinate at all is written unchanged. -/
def fixTimeDimension (c : DimCube) : DimCube :=
  match c.dims.findIdx? (fun d => d.name == "time") with
  | some t =>
    if t = 0 then c
    else { c with dims := transposeDims c.dims (neworder c.dims.length t) }
  | none =>
    if c.scalar_time then { c with dims := ⟨"time", 1⟩ :: c.dims } else c

/-! ## Output path defaulting (amami/helpers.py create_unexistent_file,
    amami/parsers/um2nc_parser.py callback_function, um2nc.py main block) -/

/-- The candidate tried at loop counter n: the bare path first, then the path
    with an underscore-number suffix, as in the while loop of
    create_unexistent_file. -/
def candName (path : String) (n : Nat) : String :=
  if n = 1 then path else path ++ "_" ++ decRepr n

/-- The while loop of create_unexistent_file with explicit fuel. Each
    iteration that continues has found its candidate among the existing
    files, and the candidates are pairwise distinct, so length files + 1
    iterations always suffice; the fuel-exhausted branch is unreachable. -/
def uniqGo (files : List String) (path : String) : Nat → Nat → String
  | 0, n => candName path n
  | fuel + 1, n =>
    if candName path n ∈ files then uniqGo files path fuel (n + 1)
    else candName path n

/-- Embeds create_unexistent_file against an explicit finite list of existing
    file names standing for os.path.exists. -/
def create_unexistent_file (files : List String) (path : String) : String :=
  uniqGo files path (files.length + 1) 1

/-- The default output path computed by callback_function in the amami um2nc
    parser when no output argument is present. -/
def default_outfile (files : List String) (infile : String) : String :=
  create_unexistent_file files (infile ++ ".nc")

/-- The default output path computed by the standalone um2nc.py main block
    when no output argument is present (line 443): no uniquifying. -/
def main_default_outfile (infile : String) : String := infile ++ ".nc"

/-! ## Run outcome on failure (um2nc.py, process lines 291-373 and the main
    block). The except clause at line 370 catches Exception, unlinks the
    output and prints the traceback, then falls through, so the process ends
    with exit code zero. SystemExit, raised for the unsupported time-series
    layout at line 349, is not a subclass of Exception in Python, so it is
    not caught there: the file survives and the interpreter exits nonzero.
    Grid-staggering and load failures are raised before the Saver opens. -/

inductive RunError
  | gridStagger
  | readFail
  | timeSeriesLayout
  | levelMismatch
deriving DecidableEq

structure RunOutcome where
  sinkOpened : Bool
  fileRemoved : Bool
  exitCode : Nat
deriving DecidableEq

/-- The observable outcome of a run of process plus interpreter exit for each
    fatal error class, read off the control flow of um2nc.py. -/
def processOutcome : RunError → RunOutcome
  | .gridStagger => ⟨false, false, 1⟩
  | .readFail => ⟨false, false, 1⟩
  | .timeSeriesLayout => ⟨true, false, 1⟩
  | .levelMismatch => ⟨true, true, 0⟩

/-- A partial output file survives the run when the sink was opened and the
    file was never removed. -/
def outputSurvives (o : RunOutcome) : Bool := o.sinkOpened && !o.fileRemoved

/-! ## Helper lemmas on lists -/

theorem getD_map_total {α : Type} (f : α → α) (d : α) (hf : f d = d)
    (l : List α) (k : Nat) : (l.map f).getD k d = f (l.getD k d) := by
  induction l generalizing k with
  | nil => simp [hf]
  | cons a t ih =>
    cases k with
    | zero => rfl
    | succ n => simp only [List.map_cons, List.getD_cons_succ]; exact ih n

theorem getD_map_lt {α β : Type} (f : α → β) (d : α) (d' : β)
    (l : List α) (k : Nat) (hk : k < l.length) :
    (l.map f).getD k d' = f (l.getD k d) := by
  induction l generalizing k with
  | nil => simp at hk
  | cons a t ih =>
    cases k with
    | zero => simp
    | succ n => simp only [List.map_cons, List.getD_cons_succ]; exact ih n (by simpa using hk)

theorem getD_zipWith_lt {α β γ : Type} (f : α → β → γ) (da : α) (db : β) (dc : γ)
    (as : List α) (bs : List β) (k : Nat) (ha : k < as.length) (hb : k < bs.length) :
    (List.zipWith f as bs).getD k dc = f (as.getD k da) (bs.getD k db) := by
  induction as generalizing bs k with
  | nil => simp at ha
  | cons a ta ih =>
    cases bs with
    | nil => simp at hb
    | cons b tb =>
      cases k with
      | zero => simp
      | succ n =>
        simp only [List.zipWith_cons_cons, List.getD_cons_succ]
        exact ih tb n (by simpa using ha) (by simpa using hb)

/-! ## Claim theorems -/

/-- Claim C1: the claim states that any exception after the output sink is
    opened removes the partial file and the process exits nonzero. The code
    diverges: a QValueError (for example, the level mismatch) is caught by
    the bare except Exception clause, which unlinks the file but swallows
    the exception, so the process exits zero; a SystemExit (the time-series
    layout error) is not an Exception subclass, so the partial file is never
    removed even though the exit code is nonzero. -/
theorem c1_cleanup_code_bug :
    (processOutcome .levelMismatch).sinkOpened = true
    ∧ (processOutcome .levelMismatch).fileRemoved = true
    ∧ (processOutcome .levelMismatch).exitCode = 0
    ∧ (processOutcome .timeSeriesLayout).sinkOpened = true
    ∧ outputSurvives (processOutcome .timeSeriesLayout) = true
    ∧ (processOutcome .timeSeriesLayout).exitCode ≠ 0 := by
  decide

/-- Claim C5: fix_cell_methods returns a sequence of the same length whose
    k-th cell method is the input one with exactly the hour-mentioning
    interval descriptors dropped, order preserved, and the function is
    idempotent. -/
theorem c5_cell_method_sanitizer (ms : List CellMethod) :
    (fix_cell_methods ms).length = ms.length
    ∧ (∀ k : Nat, (fix_cell_methods ms).getD k cmDefault =
        { ms.getD k cmDefault with
            intervals := (ms.getD k cmDefault).intervals.filter (fun i => !(hasHour i)) })
    ∧ fix_cell_methods (fix_cell_methods ms) = fix_cell_methods ms := by
  refine ⟨by simp [fix_cell_methods], fun k => ?_, ?_⟩
  · exact getD_map_total _ _ rfl ms k
  · unfold fix_cell_methods
    rw [List.map_map]
    refine List.map_congr_left fun m _ => ?_
    simp [Function.comp, List.filter_filter]

/-- Claim C2: for a time coordinate in hours since 1970, the proleptic
    Gregorian calendar with a reference year below 1600 rewrites every point
    and bound by the decode/re-encode round trip into days since 0001 under
    the same calendar; otherwise the unit becomes days since 1970 with
    gregorian renamed to proleptic_gregorian and all values divided by 24.
    Absent bounds stay absent and no branch fails. -/
theorem c2_calendar_normalizer (refYear : ℤ) (t : TimeCoord)
    (horigin : t.units.origin = "hours since 1970-01-01 00:00:00") :
    (t.units.calendar = "proleptic_gregorian" ∧ refYear < 1600 →
      fix_time_units refYear t =
        { units := ⟨"days since 0001-01-01 00:00", "proleptic_gregorian"⟩,
          points := t.points.map (fun x => date2numDays0001 (num2dateH1970 x)),
          bounds := t.bounds.map (fun bs => bs.map (fun b =>
            (date2numDays0001 (num2dateH1970 b.1), date2numDays0001 (num2dateH1970 b.2)))) })
    ∧ (¬ (t.units.calendar = "proleptic_gregorian" ∧ refYear < 1600) →
      fix_time_units refYear t =
        { units := ⟨"days since 1970-01-01 00:00",
                    if t.units.calendar = "gregorian" then "proleptic_gregorian"
                    else t.units.calendar⟩,
          points := t.points.map (fun x => x / 24),
          bounds := t.bounds.map (fun bs => bs.map (fun b => (b.1 / 24, b.2 / 24))) })
    ∧ (t.bounds = none → (fix_time_units refYear t).bounds = none) := by
  refine ⟨fun h => ?_, fun h => ?_, fun h => ?_⟩
  · unfold fix_time_units
    rw [if_pos h]
    rfl
  · unfold fix_time_units
    rw [if_neg h]
  · by_cases hc : t.units.calendar = "proleptic_gregorian" ∧ refYear < 1600
    · unfold fix_time_units
      rw [if_pos hc]
      simp [convert_proleptic, h]
    · unfold fix_time_units
      rw [if_neg hc]
      simp [h]

/-- Witness for C2: the pre-1600 branch at reference year 1500 maps the
    points 0 and 24 hours to 719162 and 719163 days since 0001, and the
    other branch at reference year 1850 divides 48 hours into 2 days. -/
theorem c2_calendar_normalizer_witness :
    fix_time_units 1500
        ⟨⟨"hours since 1970-01-01 00:00:00", "proleptic_gregorian"⟩, [0, 24], some [(0, 24)]⟩
      = ⟨⟨"days since 0001-01-01 00:00", "proleptic_gregorian"⟩,
          [719162, 719163], some [(719162, 719163)]⟩
    ∧ fix_time_units 1850
        ⟨⟨"hours since 1970-01-01 00:00:00", "proleptic_gregorian"⟩, [48], none⟩
      = ⟨⟨"days since 1970-01-01 00:00", "proleptic_gregorian"⟩, [2], none⟩ := by
  have e0 : date2numDays0001 (num2dateH1970 0) = 719162 := by
    have hn : num2dateH1970 0 = ⟨1970, 1, 1, 0, 0, 0⟩ := by
      unfold num2dateH1970
      norm_num
      decide
    rw [hn]
    unfold date2numDays0001
    have hd : daysFromCivil 1970 1 1 - daysFromCivil 1 1 1 = 719162 := by decide
    simp only []
    rw [hd]
    norm_num
  have e24 : date2numDays0001 (num2dateH1970 24) = 719163 := by
    have hn : num2dateH1970 24 = ⟨1970, 1, 2, 0, 0, 0⟩ := by
      unfold num2dateH1970
      norm_num
      decide
    rw [hn]
    unfold date2numDays0001
    have hd : daysFromCivil 1970 1 2 - daysFromCivil 1 1 1 = 719163 := by decide
    simp only []
    rw [hd]
    norm_num
  constructor
  · rw [(c2_calendar_normalizer 1500 _ rfl).1 ⟨rfl, by decide⟩]
    simp [e0, e24]
  · rw [(c2_calendar_normalizer 1850 _ rfl).2.1 (by simp)]
    norm_num

/-- The bound helper only rewrites bounds: name, points and dtype pass
    through every branch unchanged. -/
theorem add_coord_bounds_fields (c : Coord) :
    (add_coord_bounds c).name = c.name
    ∧ (add_coord_bounds c).points = c.points
    ∧ (add_coord_bounds c).dtype = c.dtype := by
  unfold add_coord_bounds
  split_ifs <;> simp

theorem add_coord_bounds_many (c : Coord) (h1 : c.points.length > 1)
    (h2 : c.bounds = none) :
    (add_coord_bounds c).bounds = some (guessBounds c.points) := by
  unfold add_coord_bounds
  rw [if_pos h1, if_pos h2]

theorem add_coord_bounds_single_lat (c : Coord) (hn : c.name = "latitude")
    (h1 : c.points.length = 1) (h2 : c.bounds = none) :
    (add_coord_bounds c).bounds = some [(-90, 90)] := by
  unfold add_coord_bounds
  rw [if_neg (by omega), if_pos hn, if_pos h2]

theorem add_coord_bounds_single_lon (c : Coord) (hn : c.name = "longitude")
    (h1 : c.points.length = 1) (h2 : c.bounds = none) :
    (add_coord_bounds c).bounds = some [(0, 360)] := by
  unfold add_coord_bounds
  rw [if_neg (by omega), if_neg (by rw [hn]; decide), if_pos hn, if_pos h2]

/-- Claim C7: the latitude and longitude repair forces points to double
    precision without changing their values; a multi-point coordinate
    without bounds gets bounds guessed from point spacing; a single-point
    coordinate without bounds gets the global bounds, -90 to 90 for latitude
    and 0 to 360 for longitude. -/
theorem c7_latlon_repair (cube : LatLonCube)
    (hlat : cube.lat.name = "latitude") (hlon : cube.lon.name = "longitude") :
    ((fix_latlon_coord cube).lat.dtype = "float64"
      ∧ (fix_latlon_coord cube).lon.dtype = "float64"
      ∧ (fix_latlon_coord cube).lat.points = cube.lat.points
      ∧ (fix_latlon_coord cube).lon.points = cube.lon.points)
    ∧ (cube.lat.points.length > 1 → cube.lat.bounds = none →
        (fix_latlon_coord cube).lat.bounds = some (guessBounds cube.lat.points))
    ∧ (cube.lon.points.length > 1 → cube.lon.bounds = none →
        (fix_latlon_coord cube).lon.bounds = some (guessBounds cube.lon.points))
    ∧ (cube.lat.points.length = 1 → cube.lat.bounds = none →
        (fix_latlon_coord cube).lat.bounds = some [(-90, 90)])
    ∧ (cube.lon.points.length = 1 → cube.lon.bounds = none →
        (fix_latlon_coord cube).lon.bounds = some [(0, 360)]) := by
  refine ⟨⟨?_, ?_, ?_, ?_⟩, fun h1 h2 => ?_, fun h1 h2 => ?_, fun h1 h2 => ?_, fun h1 h2 => ?_⟩
  · simpa using (add_coord_bounds_fields { cube.lat with dtype := "float64" }).2.2
  · simpa using (add_coord_bounds_fields { cube.lon with dtype := "float64" }).2.2
  · simpa using (add_coord_bounds_fields { cube.lat with dtype := "float64" }).2.1
  · simpa using (add_coord_bounds_fields { cube.lon with dtype := "float64" }).2.1
  · exact add_coord_bounds_many _ (by simpa using h1) (by simpa using h2)
  · exact add_coord_bounds_many _ (by simpa using h1) (by simpa using h2)
  · exact add_coord_bounds_single_lat _ (by simpa using hlat) (by simpa using h1)
      (by simpa using h2)
  · exact add_coord_bounds_single_lon _ (by simpa using hlon) (by simpa using h1)
      (by simpa using h2)

/-- Witness for C7: a single-point latitude and longitude pair without
    bounds gets the global bounds, and a two-point latitude gets spacing
    bounds. -/
theorem c7_latlon_repair_witness :
    (fix_latlon_coord ⟨⟨"latitude", [0], "float32", none⟩,
        ⟨"longitude", [17], "float32", none⟩⟩).lat.bounds = some [(-90, 90)]
    ∧ (fix_latlon_coord ⟨⟨"latitude", [0], "float32", none⟩,
        ⟨"longitude", [17], "float32", none⟩⟩).lon.bounds = some [(0, 360)]
    ∧ (fix_latlon_coord ⟨⟨"latitude", [0], "float32", none⟩,
        ⟨"longitude", [17], "float32", none⟩⟩).lat.dtype = "float64"
    ∧ (fix_latlon_coord ⟨⟨"latitude", [0, 10], "float32", none⟩,
        ⟨"longitude", [17], "float32", none⟩⟩).lat.bounds
        = some (guessBounds [0, 10]) := by
  refine ⟨?_, ?_, ?_, ?_⟩
  · exact (c7_latlon_repair _ rfl rfl).2.2.2.1 rfl rfl
  · exact (c7_latlon_repair _ rfl rfl).2.2.2.2 rfl rfl
  · exact (c7_latlon_repair _ rfl rfl).1.1
  · exact (c7_latlon_repair _ rfl rfl).2.1 (by decide) rfl

/-- Claim C10: when a pressure coordinate is present the write step sets its
    positive attribute to down, converts it to pascals, rounds the points to
    five decimals, and reverses the cube along pressure exactly when the
    first rounded point is below the last; a cube without a pressure
    coordinate passes through unchanged. -/
theorem c10_pressure_coordinate (c : PLCube) :
    (c.pressure = none → fix_pressure_coord c = c)
    ∧ (∀ pl : PressureCoord, c.pressure = some pl →
        ((fix_pressure_coord c).pressure.map PressureCoord.units = some "Pa")
        ∧ ((fix_pressure_coord c).pressure.map PressureCoord.positive = some (some "down"))
        ∧ ((pl.points.map (fun x => round5 (toPaFactor pl.units * x))).headD 0
              < (pl.points.map (fun x => round5 (toPaFactor pl.units * x))).getLastD 0 →
            (fix_pressure_coord c).pressure.map PressureCoord.points
                = some (pl.points.map (fun x => round5 (toPaFactor pl.units * x))).reverse
            ∧ (fix_pressure_coord c).data = c.data.reverse)
        ∧ (¬ (pl.points.map (fun x => round5 (toPaFactor pl.units * x))).headD 0
              < (pl.points.map (fun x => round5 (toPaFactor pl.units * x))).getLastD 0 →
            (fix_pressure_coord c).pressure.map PressureCoord.points
                = some (pl.points.map (fun x => round5 (toPaFactor pl.units * x)))
            ∧ (fix_pressure_coord c).data = c.data)) := by
  constructor
  · intro h
    unfold fix_pressure_coord
    rw [h]
  · intro pl hpl
    unfold fix_pressure_coord
    rw [hpl]
    dsimp only
    by_cases hcmp : (pl.points.map (fun x => round5 (toPaFactor pl.units * x))).headD 0
        < (pl.points.map (fun x => round5 (toPaFactor pl.units * x))).getLastD 0
    · rw [if_pos hcmp]
      exact ⟨rfl, rfl, fun _ => ⟨rfl, rfl⟩, fun hn => absurd hcmp hn⟩
    · rw [if_neg hcmp]
      exact ⟨rfl, rfl, fun hy => absurd hy hcmp, fun _ => ⟨rfl, rfl⟩⟩

/-- Witness for C10: a 250, 500, 1000 hPa coordinate converts to pascals,
    is increasing, and so the points and the data rows come out reversed;
    a cube without pressure is untouched. -/
theorem c10_pressure_coordinate_witness :
    (fix_pressure_coord ⟨some ⟨[250, 500, 1000], "hPa", none⟩, [[1], [2], [3]]⟩).pressure.map
        PressureCoord.points = some [100000, 50000, 25000]
    ∧ (fix_pressure_coord ⟨some ⟨[250, 500, 1000], "hPa", none⟩, [[1], [2], [3]]⟩).data
        = [[3], [2], [1]]
    ∧ (fix_pressure_coord ⟨some ⟨[250, 500, 1000], "hPa", none⟩, [[1], [2], [3]]⟩).pressure.map
        PressureCoord.units = some "Pa"
    ∧ fix_pressure_coord ⟨none, [[5]]⟩ = ⟨none, [[5]]⟩ := by
  have hf : toPaFactor "hPa" = 100 := by decide
  have hr250 : round5 (toPaFactor "hPa" * 250) = 25000 := by
    rw [hf]
    unfold round5
    norm_num
  have hr500 : round5 (toPaFactor "hPa" * 500) = 50000 := by
    rw [hf]
    unfold round5
    norm_num
  have hr1000 : round5 (toPaFactor "hPa" * 1000) = 100000 := by
    rw [hf]
    unfold round5
    norm_num
  have hmap : ([250, 500, 1000] : List ℚ).map
      (fun x => round5 (toPaFactor "hPa" * x)) = [25000, 50000, 100000] := by
    simp [hr250, hr500, hr1000]
  have h := (c10_pressure_coordinate ⟨some ⟨[250, 500, 1000], "hPa", none⟩, [[1], [2], [3]]⟩).2
    ⟨[250, 500, 1000], "hPa", none⟩ rfl
  have hcmp : (([250, 500, 1000] : List ℚ).map
      (fun x => round5 (toPaFactor "hPa" * x))).headD 0
      < (([250, 500, 1000] : List ℚ).map
      (fun x => round5 (toPaFactor "hPa" * x))).getLastD 0 := by
    rw [hmap]
    norm_num
  refine ⟨?_, (h.2.2.1 hcmp).2, h.1, (c10_pressure_coordinate ⟨none, [[5]]⟩).1 rfl⟩
  rw [(h.2.2.1 hcmp).1, hmap]
  rfl

/-- Claim C3: with identical shapes, apply_mask succeeds, narrows the dtype
    to float32, and produces a masked array whose mask is set exactly where
    the heaviside value is at most the threshold, with the quotient stored
    where the heaviside value exceeds it; zeros in the heaviside data raise
    no error. -/
theorem c3_apply_mask_same_shape (c h : PCube) (hcrit : ℚ)
    (hsh : cshape c = cshape h) :
    ∃ r : PCube, apply_mask c h hcrit = .ok r
      ∧ r.dtype = "float32"
      ∧ r.pressure = c.pressure
      ∧ (∀ i j : Nat, i < c.data.length → j < (c.data.getD i []).length →
          (entry h.data i j ≤ hcrit → mentry r.mask i j = true)
          ∧ (hcrit < entry h.data i j →
              mentry r.mask i j = false
              ∧ entry r.data i j = entry c.data i j / entry h.data i j)) := by
  have hlen : c.data.length = h.data.length := by
    have := congrArg List.length hsh
    simpa [cshape] using this
  have hrow : ∀ i : Nat, i < c.data.length →
      (c.data.getD i []).length = (h.data.getD i []).length := by
    intro i hi
    have := congrArg (fun l => l.getD i 0) hsh
    simp only [cshape] at this
    rw [getD_map_lt List.length [] 0 c.data i hi,
        getD_map_lt List.length [] 0 h.data i (hlen ▸ hi)] at this
    exact this
  refine ⟨maskedResult c h hcrit, ?_, rfl, rfl, ?_⟩
  · unfold apply_mask
    rw [if_pos hsh]
    rfl
  · intro i j hi hj
    have hi' : i < h.data.length := hlen ▸ hi
    have hj' : j < (h.data.getD i []).length := hrow i hi ▸ hj
    have hdiv : entry (maskDivide c.data h.data) i j
        = entry c.data i j / entry h.data i j := by
      unfold entry maskDivide
      rw [getD_zipWith_lt _ [] [] [] c.data h.data i hi hi']
      rw [getD_zipWith_lt _ 0 0 0 _ _ j hj hj']
    have hmask : mentry (maskFlags h.data hcrit) i j
        = decide (entry h.data i j ≤ hcrit) := by
      unfold mentry maskFlags entry
      rw [getD_map_lt _ [] [] h.data i hi']
      rw [getD_map_lt _ 0 true _ j hj']
    constructor
    · intro hle
      show mentry (maskFlags h.data hcrit) i j = true
      rw [hmask]
      exact decide_eq_true hle
    · intro hgt
      refine ⟨?_, hdiv⟩
      show mentry (maskFlags h.data hcrit) i j = false
      rw [hmask]
      exact decide_eq_false (not_le.mpr hgt)

/-- Witness for C3: a two-by-two target divided by a heaviside field holding
    a zero. The zero cell is masked without error, the cells above the
    threshold hold the quotient, and the dtype is float32. -/
theorem c3_apply_mask_same_shape_witness :
    ∃ r : PCube,
      apply_mask ⟨[], [[1, 2], [3, 4]], [], "float64"⟩
          ⟨[], [[0, 4], [1, 1/4]], [], "float64"⟩ (1/2) = .ok r
      ∧ r.dtype = "float32"
      ∧ mentry r.mask 0 0 = true
      ∧ mentry r.mask 0 1 = false
      ∧ entry r.data 0 1 = 1/2 := by
  obtain ⟨r, hok, hdt, _, helt⟩ :=
    c3_apply_mask_same_shape ⟨[], [[1, 2], [3, 4]], [], "float64"⟩
      ⟨[], [[0, 4], [1, 1/4]], [], "float64"⟩ (1/2) rfl
  have h00 := (helt 0 0 (by norm_num) (by norm_num)).1
  have h01 := (helt 0 1 (by norm_num) (by norm_num)).2
  have he : entry ([[0, 4], [1, 1/4]] : List (List ℚ)) 0 1 = 4 := rfl
  have hc : entry ([[1, 2], [3, 4]] : List (List ℚ)) 0 1 = 2 := rfl
  refine ⟨r, hok, hdt, ?_, ?_, ?_⟩
  · refine h00 ?_
    show entry ([[0, 4], [1, 1/4]] : List (List ℚ)) 0 0 ≤ 1/2
    norm_num [entry]
  · exact (h01 (by rw [he]; norm_num)).1
  · rw [(h01 (by rw [he]; norm_num)).2, he, hc]
    norm_num

/-- Claim C4: with differing shapes, apply_mask restricts the heaviside cube
    to the pressure points of the target; when the target levels are a subset
    of the heaviside levels and the extracted coordinate equals the target
    coordinate, masking succeeds using exactly the extracted rows; when the
    extracted coordinate differs, the level-mismatch error is raised; when
    the target levels are not a subset, the level-mismatch error is raised
    immediately. -/
theorem c4_apply_mask_level_subset (c h : PCube) (hcrit : ℚ)
    (hsh : cshape c ≠ cshape h) :
    ((∀ p ∈ c.pressure, p ∈ h.pressure) →
      (c.pressure = (extractPressure h c.pressure).pressure →
        apply_mask c h hcrit = .ok (maskedResult c (extractPressure h c.pressure) hcrit))
      ∧ (c.pressure ≠ (extractPressure h c.pressure).pressure →
        apply_mask c h hcrit =
          .error (.QValueError
            "Unexpected mismatch in levels of extracted heaviside function")))
    ∧ (¬ (∀ p ∈ c.pressure, p ∈ h.pressure) →
      apply_mask c h hcrit =
        .error (.QValueError
          "Unable to match levels of heaviside function to variable")) := by
  constructor
  · intro hsub
    have hall : c.pressure.all (fun p => decide (p ∈ h.pressure)) = true := by
      rw [List.all_eq_true]
      intro p hp
      exact decide_eq_true (hsub p hp)
    constructor
    · intro heq
      unfold apply_mask
      rw [if_neg hsh, if_pos hall, if_pos heq]
      rfl
    · intro hne
      unfold apply_mask
      rw [if_neg hsh, if_pos hall, if_neg hne]
  · intro hnsub
    have hall : ¬ (c.pressure.all (fun p => decide (p ∈ h.pressure)) = true) := by
      rw [List.all_eq_true]
      intro hy
      exact hnsub (fun p hp => of_decide_eq_true (hy p hp))
    unfold apply_mask
    rw [if_neg hsh, if_neg hall]

/-- Witness for C4: with heaviside levels 1000, 850, 500, 250 a target on
    levels 850 and 500 succeeds using only the matching heaviside rows,
    while a target on levels 850 and 300 fails with the level-mismatch
    error. -/
theorem c4_apply_mask_level_subset_witness :
    apply_mask ⟨[850, 500], [[1], [2]], [[false], [false]], "float64"⟩
        ⟨[1000, 850, 500, 250], [[4], [8], [2], [6]],
          [[false], [false], [false], [false]], "float64"⟩ (1/2)
      = .ok ⟨[850, 500], [[1/8], [1]], [[false], [false]], "float32"⟩
    ∧ apply_mask ⟨[850, 300], [[1], [2]], [[false], [false]], "float64"⟩
        ⟨[1000, 850, 500, 250], [[4], [8], [2], [6]],
          [[false], [false], [false], [false]], "float64"⟩ (1/2)
      = .error (.QValueError
          "Unable to match levels of heaviside function to variable") := by
  constructor
  · have hx : ([850, 500] : List ℚ)
        = (extractPressure ⟨[1000, 850, 500, 250], [[4], [8], [2], [6]],
            [[false], [false], [false], [false]], "float64"⟩ [850, 500]).pressure := by
      unfold extractPressure
      norm_num
    rw [((c4_apply_mask_level_subset _ _ (1/2) (by decide)).1
      (by intro p hp; fin_cases hp <;> norm_num)).1 hx]
    unfold maskedResult extractPressure maskDivide maskFlags
    norm_num
  · refine (c4_apply_mask_level_subset _ _ (1/2) (by decide)).2 ?_
    intro hy
    have h300 := hy 300 (by norm_num)
    have : ¬ ((300 : ℚ) ∈ ([1000, 850, 500, 250] : List ℚ)) := by norm_num
    exact this h300

/-- The simple-mode template is never the empty string, so it always counts
    as truthy. -/
theorem fld_template_truthy (sec item : Nat) :
    strTruthy (some (fld_template sec item)) = true := by
  have hne : (fld_template sec item == "") = false := by
    refine beq_eq_false_iff_ne.mpr fun h => ?_
    have hd := congrArg String.data h
    simp only [fld_template, String.data_append] at hd
    exact absurd (List.append_eq_nil.mp hd).1
      (List.append_ne_nil_of_right_ne_nil _ (by decide))
  simp [strTruthy, hne]

/-- Counterexample for Claim C6: two fields agreeing on item code 30201,
    simple mode off, empty cell methods and an absent resolver unique name
    get different output names when their prior variable names differ, so the
    name is not a function of the four inputs the claim lists; and a field
    with a maximum cell method but no name at all gets no _max suffix. -/
theorem c6_var_name_counterexample :
    processVarName false 30 201 none (some "ta") []
      ≠ processVarName false 30 201 none (some "ua") []
    ∧ processVarName false 30 201 none none [⟨"maximum", [], [], []⟩] = none := by
  constructor
  · decide
  · rfl

/-- Claim C6 amended: the output name is a deterministic function once the
    pre-existing variable name is added to the inputs. Simple mode always
    yields the suffixed zero-padded template; otherwise a nonempty resolver
    unique name is used and suffixed; otherwise the prior name is kept,
    suffixed only when truthy; and the two suffix checks are independent, so
    a name with both maximum and minimum methods receives both suffixes. -/
theorem c6_var_name_amended (sec item : Nat) (u prior : Option String)
    (ms : List CellMethod) :
    (processVarName true sec item u prior ms
        = some (addMaxMinSuffix (fld_template sec item) ms))
    ∧ (∀ s : String, s ≠ "" →
        processVarName false sec item (some s) prior ms
          = some (addMaxMinSuffix s ms))
    ∧ (strTruthy prior = true →
        processVarName false sec item none prior ms
          = prior.map (fun n => addMaxMinSuffix n ms))
    ∧ (strTruthy prior = false →
        processVarName false sec item none prior ms = prior)
    ∧ (∀ name : String,
        ms.any (fun m => m.method == "maximum") = true →
        ms.any (fun m => m.method == "minimum") = true →
        addMaxMinSuffix name ms = name ++ "_max" ++ "_min") := by
  refine ⟨?_, fun s hs => ?_, fun hp => ?_, fun hp => ?_, fun name h1 h2 => ?_⟩
  · have := fld_template_truthy sec item
    simp [processVarName, this]
  · have hst : strTruthy (some s) = true := by simp [strTruthy, hs]
    simp [processVarName, hst]
  · cases prior with
    | none => simp [strTruthy] at hp
    | some s =>
      have : strTruthy (if strTruthy (some s) = true then some s else some s) = true := by
        simpa using hp
      simp [processVarName, strTruthy] at hp ⊢
      simp [hp]
  · cases prior with
    | none => simp [processVarName, strTruthy]
    | some s =>
      simp [strTruthy] at hp
      simp [processVarName, strTruthy, hp]
  · unfold addMaxMinSuffix
    rw [if_pos h1, if_pos h2]

/-- Witness for the amended C6: simple mode at item code 30201 with both
    aggregations produces the doubly suffixed template; a resolver unique
    name is used when present; the prior name is kept otherwise. -/
theorem c6_var_name_amended_witness :
    processVarName true 30 201 none none [⟨"maximum", [], [], []⟩, ⟨"minimum", [], [], []⟩]
      = some "fld_s30i201_max_min"
    ∧ processVarName false 30 201 (some "ta") none [] = some "ta"
    ∧ processVarName false 30 201 none (some "ua") [] = some "ua" := by
  refine ⟨?_, ?_, ?_⟩
  · rw [(c6_var_name_amended 30 201 none none
      [⟨"maximum", [], [], []⟩, ⟨"minimum", [], [], []⟩]).1]
    decide
  · rw [(c6_var_name_amended 30 201 (some "ta") none []).2.1 "ta" (by decide)]
    decide
  · rw [(c6_var_name_amended 30 201 none (some "ua") []).2.2.1 (by decide)]
    decide

/-- Reading every position of a list through getD reproduces the list. -/
theorem map_getD_range {α : Type} (l : List α) (d : α) :
    (List.range l.length).map (fun i => l.getD i d) = l := by
  induction l with
  | nil => simp
  | cons a t ih =>
    rw [List.length_cons, List.range_succ_eq_map, List.map_cons, List.map_map]
    rw [List.getD_cons_zero]
    rw [show ((fun i => (a :: t).getD i d) ∘ Nat.succ)
        = (fun i => t.getD i d) from funext fun i => by
          simp [Function.comp, List.getD_cons_succ]]
    rw [ih]

/-- Reading every position except the index of the marked element reproduces
    the list with that element removed. -/
theorem map_getD_range_erase (pre post : List Dim) (td : Dim) :
    ((List.range (pre ++ td :: post).length).erase pre.length).map
      (fun i => (pre ++ td :: post).getD i dimDefault) = pre ++ post := by
  induction pre with
  | nil =>
    rw [List.nil_append, List.length_cons, List.range_succ_eq_map]
    rw [List.length_nil, List.erase_cons_head, List.map_map]
    rw [show ((fun i => (td :: post).getD i dimDefault) ∘ Nat.succ)
        = (fun i => post.getD i dimDefault) from funext fun i => by
          simp [Function.comp, List.getD_cons_succ]]
    exact map_getD_range post dimDefault
  | cons a t ih =>
    rw [List.cons_append, List.length_cons, List.range_succ_eq_map, List.length_cons]
    rw [List.erase_cons_tail (by simp)]
    rw [List.map_cons, List.getD_cons_zero]
    have hmaps : List.map Nat.succ ((List.range (t ++ td :: post).length).erase t.length)
        = (List.map Nat.succ (List.range (t ++ td :: post).length)).erase (t.length + 1) :=
      List.map_erase Nat.succ_injective _
    rw [← hmaps, List.map_map]
    rw [show ((fun i => (a :: (t ++ td :: post)).getD i dimDefault) ∘ Nat.succ)
        = (fun i => (t ++ td :: post).getD i dimDefault) from funext fun i => by
          simp [Function.comp, List.getD_cons_succ]]
    rw [ih, List.cons_append]

/-- getD at the position right after a prefix returns the marked element. -/
theorem getD_append_mid (pre post : List Dim) (td : Dim) :
    (pre ++ td :: post).getD pre.length dimDefault = td := by
  induction pre with
  | nil => rfl
  | cons a t ih =>
    rw [List.cons_append, List.length_cons, List.getD_cons_succ]
    exact ih

/-- The transpose of the neworder permutation moves the marked dimension to
    the front and keeps the remaining dimensions in their original order. -/
theorem transposeDims_move (pre post : List Dim) (td : Dim) :
    transposeDims (pre ++ td :: post) (neworder (pre ++ td :: post).length pre.length)
      = td :: (pre ++ post) := by
  unfold transposeDims neworder
  rw [List.map_cons, getD_append_mid, map_getD_range_erase]

/-- findIdx? locates the first dimension named time right after the
    time-free prefix. -/
theorem findIdx?_time_append (pre post : List Dim) (td : Dim) (ht : td.name = "time")
    (hpre : ∀ d ∈ pre, d.name ≠ "time") :
    (pre ++ td :: post).findIdx? (fun d => d.name == "time") = some pre.length := by
  induction pre with
  | nil => simp [List.findIdx?_cons, ht]
  | cons a t ih =>
    have ha : (a.name == "time") = false := beq_eq_false_iff_ne.mpr (hpre a (by simp))
    have iht := ih (fun d hd => hpre d (by simp [hd]))
    rw [List.cons_append]
    rw [List.findIdx?_cons, ha]
    simp only [Bool.false_eq_true, if_false, List.findIdx?_succ, iht]
    rfl

/-- findIdx? finds nothing in a list with no dimension named time. -/
theorem findIdx?_time_none (l : List Dim) (h : ∀ d ∈ l, d.name ≠ "time") :
    l.findIdx? (fun d => d.name == "time") = none := by
  induction l with
  | nil => simp [List.findIdx?_nil]
  | cons a t ih =>
    have ha : (a.name == "time") = false := beq_eq_false_iff_ne.mpr (h a (by simp))
    rw [List.findIdx?_cons, ha]
    simp only [Bool.false_eq_true, if_false, List.findIdx?_succ,
      ih (fun d hd => h d (by simp [hd]))]
    rfl

/-- Claim C8: a field whose time dimension sits at a nonzero position has
    its dimensions permuted so time comes first with the relative order of
    the other dimensions preserved; a field whose time coordinate is only
    scalar gains a new leading dimension of length one; a field with time
    already leading is left alone. -/
theorem c8_time_dimension_reorder (pre post : List Dim) (td : Dim) (c : DimCube)
    (hd : c.dims = pre ++ td :: post) (ht : td.name = "time")
    (hpre : ∀ d ∈ pre, d.name ≠ "time") :
    (pre ≠ [] → (fixTimeDimension c).dims = td :: (pre ++ post))
    ∧ (pre = [] → (fixTimeDimension c).dims = c.dims)
    ∧ (∀ c2 : DimCube, (∀ d ∈ c2.dims, d.name ≠ "time") → c2.scalar_time = true →
        (fixTimeDimension c2).dims = ⟨"time", 1⟩ :: c2.dims) := by
  refine ⟨fun hne => ?_, fun hnil => ?_, fun c2 h2 hs => ?_⟩
  · unfold fixTimeDimension
    rw [hd, findIdx?_time_append pre post td ht hpre]
    have hlen : ¬ pre.length = 0 := fun h0 => hne (List.length_eq_zero.mp h0)
    dsimp only
    rw [if_neg hlen]
    exact transposeDims_move pre post td
  · have h0 := findIdx?_time_append pre post td ht hpre
    rw [hnil] at h0 hd
    simp only [List.nil_append, List.length_nil] at h0 hd
    unfold fixTimeDimension
    rw [hd, h0]
    exact hd
  · unfold fixTimeDimension
    rw [findIdx?_time_none c2.dims h2, hs]
    rfl

/-- Witness for C8: dimensions level, time, lat, lon are permuted to time,
    level, lat, lon; a cube with only a scalar time coordinate gains a
    leading time dimension of length one. -/
theorem c8_time_dimension_reorder_witness :
    (fixTimeDimension ⟨[⟨"level", 2⟩, ⟨"time", 3⟩, ⟨"lat", 4⟩, ⟨"lon", 5⟩], false⟩).dims
      = [⟨"time", 3⟩, ⟨"level", 2⟩, ⟨"lat", 4⟩, ⟨"lon", 5⟩]
    ∧ (fixTimeDimension ⟨[⟨"lat", 4⟩, ⟨"lon", 5⟩], true⟩).dims
      = [⟨"time", 1⟩, ⟨"lat", 4⟩, ⟨"lon", 5⟩] := by
  constructor
  · have h := (c8_time_dimension_reorder [⟨"level", 2⟩] [⟨"lat", 4⟩, ⟨"lon", 5⟩]
      ⟨"time", 3⟩ ⟨[⟨"level", 2⟩, ⟨"time", 3⟩, ⟨"lat", 4⟩, ⟨"lon", 5⟩], false⟩
      rfl rfl (by decide)).1 (by decide)
    simpa using h
  · exact (c8_time_dimension_reorder [⟨"level", 2⟩] [⟨"lat", 4⟩, ⟨"lon", 5⟩]
      ⟨"time", 3⟩ ⟨[⟨"level", 2⟩, ⟨"time", 3⟩, ⟨"lat", 4⟩, ⟨"lon", 5⟩], false⟩
      rfl rfl (by decide)).2.2 ⟨[⟨"lat", 4⟩, ⟨"lon", 5⟩], true⟩ (by decide) rfl

/-- The code of a digit character recovers the digit. -/
theorem digChar_toNat (d : Nat) (h : d < 10) : (digChar d).toNat = 48 + d := by
  interval_cases d <;> decide

/-- Appending one digit multiplies the value by ten and adds the digit. -/
theorem decVal_append (xs : List Char) (c : Char) :
    decVal (xs ++ [c]) = 10 * decVal xs + (c.toNat - 48) := by
  unfold decVal
  rw [List.foldl_append]
  rfl

/-- With enough fuel, the digit string of n evaluates back to n. -/
theorem decVal_decDigitsGo (fuel : Nat) :
    ∀ n : Nat, n < fuel → decVal (decDigitsGo fuel n) = n := by
  induction fuel with
  | zero => intro n hn; omega
  | succ f ih =>
    intro n hn
    unfold decDigitsGo
    by_cases h10 : n < 10
    · rw [if_pos h10]
      unfold decVal
      simp [digChar_toNat n h10]
    · rw [if_neg h10]
      rw [decVal_append]
      rw [ih (n / 10) (by omega)]
      rw [digChar_toNat (n % 10) (Nat.mod_lt n (by omega))]
      omega

/-- The decimal representation of naturals is injective. -/
theorem decRepr_inj (a b : Nat) (h : decRepr a = decRepr b) : a = b := by
  have hd := congrArg String.data h
  simp only [decRepr] at hd
  have ha := decVal_decDigitsGo (a + 1) a (by omega)
  have hb := decVal_decDigitsGo (b + 1) b (by omega)
  rw [← ha, ← hb]
  exact congrArg decVal hd

/-- The digit string of n is never empty. -/
theorem decDigitsGo_ne_nil (fuel n : Nat) : decDigitsGo (fuel + 1) n ≠ [] := by
  unfold decDigitsGo
  by_cases h10 : n < 10
  · rw [if_pos h10]; simp
  · rw [if_neg h10]
    exact List.append_ne_nil_of_right_ne_nil _ (by simp)

/-- The loop candidates are pairwise distinct over positive counters. -/
theorem candName_inj (path : String) (a b : Nat) (ha : 1 ≤ a) (hb : 1 ≤ b)
    (hne : a ≠ b) : candName path a ≠ candName path b := by
  intro h
  unfold candName at h
  by_cases h1 : a = 1 <;> by_cases h2 : b = 1
  · exact hne (h1.trans h2.symm)
  · rw [if_pos h1, if_neg h2] at h
    have hd := congrArg String.data h
    simp only [String.data_append] at hd
    have hl := congrArg List.length hd
    simp only [List.length_append] at hl
    have hnil : ((decRepr b).data).length ≠ 0 := by
      simp only [decRepr]
      intro hz
      exact decDigitsGo_ne_nil b b (List.length_eq_zero.mp hz)
    have : ("_".data).length = 1 := by decide
    omega
  · rw [if_neg h1, if_pos h2] at h
    have hd := congrArg String.data h
    simp only [String.data_append] at hd
    have hl := congrArg List.length hd
    simp only [List.length_append] at hl
    have hnil : ((decRepr a).data).length ≠ 0 := by
      simp only [decRepr]
      intro hz
      exact decDigitsGo_ne_nil a a (List.length_eq_zero.mp hz)
    have : ("_".data).length = 1 := by decide
    omega
  · rw [if_neg h1, if_neg h2] at h
    have hd := congrArg String.data h
    simp only [String.data_append] at hd
    rw [List.append_assoc, List.append_assoc] at hd
    have := List.append_cancel_left hd
    have hdat := List.append_cancel_left this
    have : decRepr a = decRepr b := by
      cases hra : decRepr a with
      | mk la =>
        cases hrb : decRepr b with
        | mk lb =>
          have : la = lb := by
            have h1 := congrArg String.data hra
            have h2 := congrArg String.data hrb
            simp at h1 h2
            rw [← h1, ← h2]
            exact hdat
          rw [this]
    exact hne (decRepr_inj a b this)

/-- If the loop result still names an existing file, every candidate tried
    along the way names an existing file. -/
theorem uniqGo_all_mem (files : List String) (path : String) :
    ∀ fuel n : Nat, uniqGo files path fuel n ∈ files →
      ∀ k : Nat, k ≤ fuel → candName path (n + k) ∈ files := by
  intro fuel
  induction fuel with
  | zero =>
    intro n h k hk
    have : k = 0 := Nat.le_zero.mp hk
    subst this
    simpa [uniqGo] using h
  | succ f ih =>
    intro n h k hk
    by_cases hc : candName path n ∈ files
    · cases k with
      | zero => simpa using hc
      | succ j =>
        have h' : uniqGo files path f (n + 1) ∈ files := by
          simpa [uniqGo, hc] using h
        have := ih (n + 1) h' j (by omega)
        have harith : n + 1 + j = n + (j + 1) := by omega
        rw [harith] at this
        exact this
    · exact absurd (by simpa [uniqGo, hc] using h) hc

/-- The while loop of create_unexistent_file always lands on a name that is
    not among the existing files: the candidates are pairwise distinct, so
    the existing files cannot absorb them all. -/
theorem create_unexistent_file_not_mem (files : List String) (path : String) :
    create_unexistent_file files path ∉ files := by
  intro hmem
  have hall := uniqGo_all_mem files path (files.length + 1) 1 hmem
  have hnodup : ((List.range (files.length + 2)).map
      (fun k => candName path (1 + k))).Nodup := by
    refine List.Nodup.map_on ?_ (List.nodup_range _)
    intro x _ y _ hxy
    by_contra hne
    exact candName_inj path (1 + x) (1 + y) (by omega) (by omega) (by omega) hxy
  have hsub : ((List.range (files.length + 2)).map
      (fun k => candName path (1 + k))) ⊆ files := by
    intro s hs
    rcases List.mem_map.mp hs with ⟨k, hk, rfl⟩
    exact hall k (by have := List.mem_range.mp hk; omega)
  have hlen := (List.subperm_of_subset hnodup hsub).length_le
  simp only [List.length_map, List.length_range] at hlen
  omega

/-- Counterexample for Claim C9: invoked through the standalone um2nc.py
    main block with no output argument and the file in.nc already existing,
    the chosen default output path names that existing file, so no
    uniquifying suffix is added on this code path. -/
theorem c9_default_outfile_counterexample :
    main_default_outfile "in" ∈ ["in.nc"] := by
  decide

/-- Claim C9 amended: under the amami um2nc parser callback the default
    output path is the input path with .nc appended, uniquified so that the
    chosen path never names an existing file, and equal to the plain
    input.nc when that name is free; the standalone um2nc.py entry point
    appends .nc without uniquifying. -/
theorem c9_default_outfile_amended (files : List String) (infile : String) :
    default_outfile files infile ∉ files
    ∧ ((infile ++ ".nc") ∉ files → default_outfile files infile = infile ++ ".nc")
    ∧ main_default_outfile infile = infile ++ ".nc" := by
  refine ⟨create_unexistent_file_not_mem files (infile ++ ".nc"), fun h => ?_, rfl⟩
  unfold default_outfile create_unexistent_file
  have h1 : candName (infile ++ ".nc") 1 = infile ++ ".nc" := by
    unfold candName
    rw [if_pos rfl]
  simp [uniqGo, h1, h]

/-- Witness for the amended C9: with only the unrelated file y existing, the
    default for input x is x.nc and is not an existing file; with x.nc
    existing, the default still avoids every existing file. -/
theorem c9_default_outfile_amended_witness :
    default_outfile ["y"] "x" ∉ (["y"] : List String)
    ∧ default_outfile ["y"] "x" = "x.nc"
    ∧ default_outfile ["x.nc"] "x" ∉ (["x.nc"] : List String) :=
  ⟨(c9_default_outfile_amended ["y"] "x").1,
   (c9_default_outfile_amended ["y"] "x").2.1 (by decide),
   (c9_default_outfile_amended ["x.nc"] "x").1⟩

end Um2nc